import Mathlib

/-!
Shallow embedding of the gesture-interpretation core of `my_libinput`
(edge-motion FSM and four-finger swipe FSM from
`src/evdev-mt-touchpad-edge-motion.c` and the tds/event-driven variant),
with theorems checking the natural-language specification against it.

C `double` arithmetic is modelled over `ℚ` (the computations involved are
ring operations and comparisons; no floating-point rounding behaviour is
relevant to the properties below).  Monotonic timestamps (`uint64_t`
microseconds) are modelled as `Nat`.
-/

namespace MyLibinput

/-- Edge bitset over {left, right, top, bottom}, modelling the C
`uint32_t` edge flags `EDGE_LEFT | EDGE_RIGHT | EDGE_TOP | EDGE_BOTTOM`. -/
structure Edges where
  left : Bool
  right : Bool
  top : Bool
  bottom : Bool
deriving DecidableEq, Repr

/-- The empty edge set, `EDGE_NONE`. -/
def Edges.none : Edges := ⟨false, false, false, false⟩

/-- `edge != EDGE_NONE` in C: at least one flag set. -/
def Edges.nonempty (e : Edges) : Bool := e.left || e.right || e.top || e.bottom

/-- Number of edge flags set. -/
def Edges.count (e : Edges) : Nat :=
  (cond e.left 1 0) + (cond e.right 1 0) + (cond e.top 1 0) + (cond e.bottom 1 0)

/-- States of the edge-motion FSM (`enum edge_motion_state`).
`idle` = STATE_IDLE, `dragCentered` = STATE_DRAG_ACTIVE_CENTERED,
`edgeEntry` = STATE_DRAG_EDGE_ENTRY, `edgeContinuous` = STATE_DRAG_EDGE_CONTINUOUS
(the spec's `edge_active`), `edgeExit` = STATE_DRAG_EDGE_EXIT. -/
inductive EMState where
  | idle
  | dragCentered
  | edgeEntry
  | edgeContinuous
  | edgeExit
deriving DecidableEq, Repr

/-- `calculate_next_state` from `evdev-mt-touchpad-edge-motion.c`:

    if (!is_dragging) return STATE_IDLE;
    switch (current) {
        case STATE_IDLE:
        case STATE_DRAG_ACTIVE_CENTERED:
        case STATE_DRAG_EDGE_EXIT:
            return (edge != EDGE_NONE) ? STATE_DRAG_EDGE_ENTRY : STATE_DRAG_ACTIVE_CENTERED;
        case STATE_DRAG_EDGE_ENTRY:
        case STATE_DRAG_EDGE_CONTINUOUS:
            return (edge != EDGE_NONE) ? STATE_DRAG_EDGE_CONTINUOUS : STATE_DRAG_EDGE_EXIT;
    }
    return STATE_IDLE; -/
def calculate_next_state (is_dragging : Bool) (edge : Edges) (current : EMState) : EMState :=
  if !is_dragging then .idle
  else
    match current with
    | .idle | .dragCentered | .edgeExit =>
        if edge.nonempty then .edgeEntry else .dragCentered
    | .edgeEntry | .edgeContinuous =>
        if edge.nonempty then .edgeContinuous else .edgeExit

/-- Device geometry inputs of `detect_touch_edge`: the edge-threshold
converted to device units (`evdev_device_mm_to_units` of 7 mm) and the
absinfo maxima per axis. -/
structure Geometry where
  thresholdX : ℤ
  thresholdY : ℤ
  maxX : ℤ
  maxY : ℤ

/-- `detect_touch_edge` from `evdev-mt-touchpad-edge-motion.c`:

    if (t->point.x < threshold.x) edge |= EDGE_LEFT;
    if (t->point.x > tp->device->abs.absinfo_x->maximum - threshold.x) edge |= EDGE_RIGHT;
    if (t->point.y < threshold.y) edge |= EDGE_TOP;
    if (t->point.y > tp->device->abs.absinfo_y->maximum - threshold.y) edge |= EDGE_BOTTOM; -/
def detect_touch_edge (g : Geometry) (px py : ℤ) : Edges :=
  { left := decide (px < g.thresholdX),
    right := decide (px > g.maxX - g.thresholdX),
    top := decide (py < g.thresholdY),
    bottom := decide (py > g.maxY - g.thresholdY) }

/-- The motion direction vector of `calculate_motion_vector` before the
normalization step (the `*dx`/`*dy` values built from the edge flags):

    if (edge & EDGE_LEFT) *dx = -1.0; else if (edge & EDGE_RIGHT) *dx = 1.0;
    if (edge & EDGE_TOP) *dy = -1.0; else if (edge & EDGE_BOTTOM) *dy = 1.0; -/
def calculate_motion_vector_raw (e : Edges) : ℚ × ℚ :=
  (if e.left then -1 else if e.right then 1 else 0,
   if e.top then -1 else if e.bottom then 1 else 0)

/-- The squared magnitude `(*dx)*(*dx) + (*dy)*(*dy)` that
`calculate_motion_vector` takes the square root of; the C code divides by
the root only when it is positive, else leaves the zero vector. -/
def motionMagSq (e : Edges) : ℚ :=
  (calculate_motion_vector_raw e).1 * (calculate_motion_vector_raw e).1 +
    (calculate_motion_vector_raw e).2 * (calculate_motion_vector_raw e).2

/-- Scale coefficients `tp->accel.x_scale_coeff` / `y_scale_coeff`. -/
structure AccelScale where
  x_scale_coeff : ℚ
  y_scale_coeff : ℚ

/-- `EDGE_MOTION_CONFIG_SPEED_MM_S` (25.0 in the timer-driven variant). -/
def EDGE_MOTION_CONFIG_SPEED_MM_S : ℚ := 25

/-- `EDGE_MOTION_CONFIG_MIN_INTERVAL_US` (8 ms). -/
def EDGE_MOTION_CONFIG_MIN_INTERVAL_US : Nat := 8000

/-- The fields of `struct edge_motion_fsm` read and written on the periodic
tick path, with the armed `libinput_timer` deadline modelled as an
`Option Nat` (`Option.none` = cancelled). -/
structure EMFsm where
  current_state : EMState
  last_motion_time : Nat
  motion_dx : ℚ
  motion_dy : ℚ
  continuous_motion_count : Nat
  timer : Option Nat
deriving DecidableEq, Repr

/-- `inject_accumulated_motion`: converts the time elapsed since the last
motion event into a distance at the flat configured speed and posts the
direction vector scaled by it; returns the updated fsm and the raw
device-unit displacement handed to `pointer_notify_motion`, if any. -/
def inject_accumulated_motion (accel : AccelScale) (f : EMFsm) (time : Nat) :
    EMFsm × Option (ℚ × ℚ) :=
  if f.last_motion_time = 0 then ({ f with last_motion_time := time }, Option.none)
  else
    let time_since_last : Nat := time - f.last_motion_time
    let dist_mm : ℚ := EDGE_MOTION_CONFIG_SPEED_MM_S * ((time_since_last : ℚ) / 1000000)
    if dist_mm < 1 / 1000 then (f, Option.none)
    else
      ({ f with last_motion_time := time,
                continuous_motion_count := f.continuous_motion_count + 1 },
       some (f.motion_dx * dist_mm * accel.x_scale_coeff,
             f.motion_dy * dist_mm * accel.y_scale_coeff))

/-- `tp_edge_motion_handle_timeout`: the periodic tick callback; injects
motion in the edge states and re-arms the timer 8 ms ahead. -/
def tp_edge_motion_handle_timeout (accel : AccelScale) (f : EMFsm) (now : Nat) :
    EMFsm × Option (ℚ × ℚ) :=
  if f.current_state ≠ .edgeEntry ∧ f.current_state ≠ .edgeContinuous then (f, Option.none)
  else
    let r := inject_accumulated_motion accel f now
    ({ r.1 with timer := some (now + EDGE_MOTION_CONFIG_MIN_INTERVAL_US) }, r.2)

/-- C1: the edge-motion transition function: with drag inactive the result is
idle from every state; with drag active, from {idle, dragging-centered,
edge-exit} the result is edge-entry when the detected edge set is non-empty
and dragging-centered when it is empty; from {edge-entry, edge-active} the
result is edge-active when the edge set is non-empty and edge-exit when it
is empty. -/
theorem c1_calculate_next_state_table (edge : Edges) (s : EMState) :
    calculate_next_state false edge s = .idle ∧
    (s = .idle ∨ s = .dragCentered ∨ s = .edgeExit →
      calculate_next_state true edge s =
        (if edge.nonempty then .edgeEntry else .dragCentered)) ∧
    (s = .edgeEntry ∨ s = .edgeContinuous →
      calculate_next_state true edge s =
        (if edge.nonempty then .edgeContinuous else .edgeExit)) := by
  refine ⟨rfl, ?_, ?_⟩ <;> rintro (rfl | rfl | rfl | rfl) <;> rfl

/-- Witness for C1 at concrete inputs: from dragging-centered with the left
edge breached, the next state is edge-entry. -/
theorem c1_calculate_next_state_table_witness :
    calculate_next_state true ⟨true, false, false, false⟩ .dragCentered =
      (if Edges.nonempty ⟨true, false, false, false⟩ then .edgeEntry else .dragCentered) :=
  (c1_calculate_next_state_table ⟨true, false, false, false⟩ .dragCentered).2.1
    (Or.inr (Or.inl rfl))

/-- C2: evaluation of the code at the failing input.  With 10 device units
per mm (threshold 7 mm = 70 units, axis maximum 1000), a touch at x = 10
sits 1 mm from the left boundary (the claim's < 3 mm zone, multiplier 2.0)
and a touch at x = 60 sits 6 mm away (the claim's ≥ 5 mm zone, multiplier
0.5); both classify as exactly the left edge, and the tick that fires 16 ms
after the previous motion injects the same displacement
(-25 mm/s × 0.016 s = -0.4 mm on x, scale coefficient 1) for both — the
code has no distance-dependent multiplier at all, contradicting the claimed
4× ratio between the two zones. -/
theorem c2_tick_speed_ignores_edge_distance :
    detect_touch_edge ⟨70, 70, 1000, 1000⟩ 10 500 = detect_touch_edge ⟨70, 70, 1000, 1000⟩ 60 500 ∧
    detect_touch_edge ⟨70, 70, 1000, 1000⟩ 10 500 = ⟨true, false, false, false⟩ ∧
    (tp_edge_motion_handle_timeout ⟨1, 1⟩
        { current_state := .edgeContinuous, last_motion_time := 1000000,
          motion_dx := -1, motion_dy := 0, continuous_motion_count := 0,
          timer := some 1000000 } 1016000).2 = some (-2/5, 0) := by
  refine ⟨rfl, rfl, ?_⟩
  norm_num [tp_edge_motion_handle_timeout, inject_accumulated_motion,
    EDGE_MOTION_CONFIG_SPEED_MM_S]

/-- C8: (i) for a position strictly inside the threshold margin on exactly
one axis, exactly one edge flag is set, the raw squared magnitude is 1 (so
the normalization divides by 1 and the emitted vector is the raw one), and
the other-axis component is exactly 0 — stated for each of the four edges;
(ii) for an edge set containing a horizontal and a vertical flag (corner),
the normalized vector has magnitude exactly 1: for any real m with
m² = the raw squared magnitude and m > 0 (i.e. m is the square root the C
code divides by), the components divided by m have squared norm 1;
(iii) the empty edge set yields the zero raw vector with zero magnitude, so
the C guard `if (magnitude > 0)` skips the division and the result is the
zero vector (no NaN). -/
theorem c8_motion_vector_normalization (g : Geometry) (px py : ℤ) (m : ℝ) :
    (px < g.thresholdX → ¬px > g.maxX - g.thresholdX →
     ¬py < g.thresholdY → ¬py > g.maxY - g.thresholdY →
      (detect_touch_edge g px py).count = 1 ∧
      motionMagSq (detect_touch_edge g px py) = 1 ∧
      (calculate_motion_vector_raw (detect_touch_edge g px py)).2 = 0) ∧
    (px > g.maxX - g.thresholdX → ¬px < g.thresholdX →
     ¬py < g.thresholdY → ¬py > g.maxY - g.thresholdY →
      (detect_touch_edge g px py).count = 1 ∧
      motionMagSq (detect_touch_edge g px py) = 1 ∧
      (calculate_motion_vector_raw (detect_touch_edge g px py)).2 = 0) ∧
    (py < g.thresholdY → ¬py > g.maxY - g.thresholdY →
     ¬px < g.thresholdX → ¬px > g.maxX - g.thresholdX →
      (detect_touch_edge g px py).count = 1 ∧
      motionMagSq (detect_touch_edge g px py) = 1 ∧
      (calculate_motion_vector_raw (detect_touch_edge g px py)).1 = 0) ∧
    (py > g.maxY - g.thresholdY → ¬py < g.thresholdY →
     ¬px < g.thresholdX → ¬px > g.maxX - g.thresholdX →
      (detect_touch_edge g px py).count = 1 ∧
      motionMagSq (detect_touch_edge g px py) = 1 ∧
      (calculate_motion_vector_raw (detect_touch_edge g px py)).1 = 0) ∧
    (∀ e : Edges, (e.left || e.right) = true → (e.top || e.bottom) = true →
      m ^ 2 = ((motionMagSq e : ℚ) : ℝ) → 0 < m →
      (((calculate_motion_vector_raw e).1 : ℝ) / m) ^ 2 +
        (((calculate_motion_vector_raw e).2 : ℝ) / m) ^ 2 = 1) ∧
    (calculate_motion_vector_raw Edges.none = (0, 0) ∧ motionMagSq Edges.none = 0) := by
  refine ⟨?_, ?_, ?_, ?_, ?_,
    by constructor <;> norm_num [calculate_motion_vector_raw, motionMagSq, Edges.none]⟩
  · intro h1 h2 h3 h4
    simp [detect_touch_edge, h1, h2, h3, h4, Edges.count, motionMagSq,
      calculate_motion_vector_raw]
  · intro h1 h2 h3 h4
    simp [detect_touch_edge, h1, h2, h3, h4, Edges.count, motionMagSq,
      calculate_motion_vector_raw]
  · intro h1 h2 h3 h4
    simp [detect_touch_edge, h1, h2, h3, h4, Edges.count, motionMagSq,
      calculate_motion_vector_raw]
  · intro h1 h2 h3 h4
    simp [detect_touch_edge, h1, h2, h3, h4, Edges.count, motionMagSq,
      calculate_motion_vector_raw]
  · intro e hx hy hm hm0
    have hmne : m ≠ 0 := ne_of_gt hm0
    have hmag : ((motionMagSq e : ℚ) : ℝ) =
        ((calculate_motion_vector_raw e).1 : ℝ) ^ 2 +
          ((calculate_motion_vector_raw e).2 : ℝ) ^ 2 := by
      push_cast [motionMagSq]
      ring
    rw [div_pow, div_pow, div_add_div_same, ← hmag, ← hm]
    exact div_self (pow_ne_zero 2 hmne)

/-- Witness for C8 at concrete inputs: threshold 70 units, maxima 1000;
the touch at (10, 500) is inside the left margin only, and a left+top
corner set normalized by √2 has squared norm 1. -/
theorem c8_motion_vector_normalization_witness :
    ((detect_touch_edge ⟨70, 70, 1000, 1000⟩ 10 500).count = 1 ∧
     motionMagSq (detect_touch_edge ⟨70, 70, 1000, 1000⟩ 10 500) = 1 ∧
     (calculate_motion_vector_raw (detect_touch_edge ⟨70, 70, 1000, 1000⟩ 10 500)).2 = 0) ∧
    (((calculate_motion_vector_raw ⟨true, false, true, false⟩).1 : ℝ) / Real.sqrt 2) ^ 2 +
      (((calculate_motion_vector_raw ⟨true, false, true, false⟩).2 : ℝ) / Real.sqrt 2) ^ 2 = 1 := by
  have h := c8_motion_vector_normalization ⟨70, 70, 1000, 1000⟩ 10 500 (Real.sqrt 2)
  refine ⟨h.1 (by decide) (by decide) (by decide) (by decide), ?_⟩
  refine h.2.2.2.2.1 ⟨true, false, true, false⟩ rfl rfl ?_ (Real.sqrt_pos.mpr (by norm_num))
  rw [Real.sq_sqrt (by norm_num : (0 : ℝ) ≤ 2)]
  norm_num [motionMagSq, calculate_motion_vector_raw]

/-! The event-driven per-touch edge-motion machine of the tds variant
(`tp_edge_motion_handle_event` and friends): states NONE / DRAGGING /
EDGE_NEW / EDGE_ACTIVE, driven by touch/motion/release events and the two
per-touch timers (a one-shot start timer and a periodic tick timer). -/

/-- `enum tp_edge_motion_touch_state`. -/
inductive TdsState where
  | none
  | dragging
  | edgeNew
  | edgeActive
deriving DecidableEq, Repr

/-- `enum edge_motion_event`. -/
inductive TdsEvent where
  | touch
  | motion
  | release
  | timeoutStart
  | timeoutTick
  | posted
deriving DecidableEq, Repr

/-- Inputs of `tp_touch_get_edge_motion_edges`: the normalized edge-motion
threshold and the scroll right/bottom edge coordinates. -/
structure TdsParams where
  threshold : ℤ
  right_edge : ℤ
  bottom_edge : ℤ

/-- `tp_touch_get_edge_motion_edges`:

    if (t->point.x > (tp->scroll.right_edge + DEFAULT_EDGE_MOTION_THRESHOLD)) edges |= EDGE_RIGHT;
    if (t->point.y > (tp->scroll.bottom_edge + DEFAULT_EDGE_MOTION_THRESHOLD)) edges |= EDGE_BOTTOM;
    if (t->point.x < DEFAULT_EDGE_MOTION_THRESHOLD) edges |= EDGE_LEFT;
    if (t->point.y < DEFAULT_EDGE_MOTION_THRESHOLD) edges |= EDGE_TOP; -/
def tp_touch_get_edge_motion_edges (p : TdsParams) (px py : ℤ) : Edges :=
  { left := decide (px < p.threshold),
    right := decide (px > p.right_edge + p.threshold),
    top := decide (py < p.threshold),
    bottom := decide (py > p.bottom_edge + p.threshold) }

/-- The per-touch `edge_motion` context: state, edge set, and the two timer
deadlines (`Option.none` = cancelled). -/
structure TouchEM where
  state : TdsState
  edges : Edges
  start_timer : Option Nat
  tick_timer : Option Nat
deriving DecidableEq, Repr

/-- `DEFAULT_EDGE_MOTION_DELAY` = ms2us(150). -/
def DEFAULT_EDGE_MOTION_DELAY : Nat := 150000

/-- `EDGE_MOTION_INTERVAL` = ms2us(16), ~60 fps. -/
def EDGE_MOTION_INTERVAL : Nat := 16000

/-- `tp_touch_is_tap_dragging`: a placeholder in the source that always
returns false (marked FIXME there). -/
def tp_touch_is_tap_dragging : Bool := false

/-- `tp_edge_motion_set_state`: cancels both timers, stores the new state,
then per state clears the edges or arms the matching timer (the start timer
150 ms ahead on EDGE_NEW, the tick timer 16 ms ahead on EDGE_ACTIVE). -/
def tp_edge_motion_set_state (p : TdsParams) (px py : ℤ) (t : TouchEM)
    (s : TdsState) (time : Nat) : TouchEM :=
  let t := { t with start_timer := Option.none, tick_timer := Option.none, state := s }
  match s with
  | .none => { t with edges := Edges.none }
  | .dragging => { t with edges := Edges.none }
  | .edgeNew => { t with edges := tp_touch_get_edge_motion_edges p px py,
                         start_timer := some (time + DEFAULT_EDGE_MOTION_DELAY) }
  | .edgeActive => { t with tick_timer := some (time + EDGE_MOTION_INTERVAL) }

/-- `tp_edge_motion_handle_event`: dispatch to the per-state handlers
(`tp_edge_motion_handle_none` / `_dragging` / `_edge_new` / `_edge_active`),
inlined here exactly as each handler treats each event. -/
def tp_edge_motion_handle_event (p : TdsParams) (px py : ℤ) (t : TouchEM)
    (ev : TdsEvent) (time : Nat) : TouchEM :=
  match t.state, ev with
  | .none, .touch =>
      if tp_touch_is_tap_dragging then tp_edge_motion_set_state p px py t .dragging time
      else t
  | .none, _ => t
  | .dragging, .motion =>
      if (tp_touch_get_edge_motion_edges p px py).nonempty then
        tp_edge_motion_set_state p px py t .edgeNew time
      else t
  | .dragging, .release => tp_edge_motion_set_state p px py t .none time
  | .dragging, _ => t
  | .edgeNew, .motion =>
      let t := { t with edges := tp_touch_get_edge_motion_edges p px py }
      if !t.edges.nonempty then tp_edge_motion_set_state p px py t .dragging time
      else t
  | .edgeNew, .release => tp_edge_motion_set_state p px py t .none time
  | .edgeNew, .timeoutStart => tp_edge_motion_set_state p px py t .edgeActive time
  | .edgeNew, _ => t
  | .edgeActive, .motion =>
      let t := { t with edges := tp_touch_get_edge_motion_edges p px py }
      if !t.edges.nonempty then tp_edge_motion_set_state p px py t .dragging time
      else t
  | .edgeActive, .release => tp_edge_motion_set_state p px py t .none time
  | .edgeActive, .timeoutTick => { t with tick_timer := some (time + EDGE_MOTION_INTERVAL) }
  | .edgeActive, _ => t

/-- One event delivered to the machine: the event kind, the touch position
at that moment, and the timestamp. -/
structure TdsFrameEvent where
  ev : TdsEvent
  px : ℤ
  py : ℤ
  time : Nat

/-- Folding a list of events through `tp_edge_motion_handle_event`. -/
def tp_edge_motion_run (p : TdsParams) (t : TouchEM) (evs : List TdsFrameEvent) : TouchEM :=
  evs.foldl (fun t e => tp_edge_motion_handle_event p e.px e.py t e.ev e.time) t

/-- Per-touch core of `tp_edge_motion_post_events`: the normalized motion
posted for a touch, `Option.none` when none is emitted.  `invSqrt2` stands
for the C `1.0/sqrt(2.0)` diagonal factor (irrational, hence passed
symbolically; no theorem below depends on its value). -/
def tp_edge_motion_post_motion (t : TouchEM) (invSqrt2 : ℚ) : Option (ℚ × ℚ) :=
  if t.state ≠ .edgeActive then Option.none
  else if !t.edges.nonempty then Option.none
  else
    let speed_per_frame : ℚ := (1 / 2) * (16000 / 1000000)
    let mx := (if t.edges.right then speed_per_frame else 0) -
      (if t.edges.left then speed_per_frame else 0)
    let my := (if t.edges.bottom then speed_per_frame else 0) -
      (if t.edges.top then speed_per_frame else 0)
    if (t.edges.left || t.edges.right) && (t.edges.top || t.edges.bottom) then
      some (mx * invSqrt2, my * invSqrt2)
    else some (mx, my)

/-- Any event other than the start-timer expiry never moves the machine
into EDGE_ACTIVE. -/
theorem tds_step_not_active (p : TdsParams) (px py : ℤ) (t : TouchEM)
    (ev : TdsEvent) (time : Nat) (ht : t.state ≠ .edgeActive)
    (hev : ev ≠ .timeoutStart) :
    (tp_edge_motion_handle_event p px py t ev time).state ≠ .edgeActive := by
  cases hs : t.state <;> cases ev <;>
    simp_all [tp_edge_motion_handle_event, tp_edge_motion_set_state,
      tp_touch_is_tap_dragging] <;>
    (split <;> simp_all)

/-- Over any event sequence that contains no start-timer expiry, a touch
not in EDGE_ACTIVE never reaches EDGE_ACTIVE. -/
theorem tds_run_not_active (p : TdsParams) (evs : List TdsFrameEvent) (t : TouchEM)
    (ht : t.state ≠ .edgeActive) (hevs : ∀ e ∈ evs, e.ev ≠ TdsEvent.timeoutStart) :
    (tp_edge_motion_run p t evs).state ≠ .edgeActive := by
  induction evs generalizing t with
  | nil => simpa [tp_edge_motion_run] using ht
  | cons e rest ih =>
      simp only [tp_edge_motion_run, List.foldl_cons]
      exact ih _
        (tds_step_not_active p e.px e.py t e.ev e.time ht (hevs e (by simp)))
        (fun x hx => hevs x (by simp [hx]))

/-- C5: entering EDGE_NEW (`edge_entry`) arms the one-shot start timer
150 ms ahead; while in EDGE_NEW, only the start timer's expiry can reach
EDGE_ACTIVE (over any event sequence without it, EDGE_ACTIVE is never
reached) and motion posting emits nothing; on the expiry the machine
transitions to EDGE_ACTIVE and arms the periodic 16 ms tick timer. -/
theorem c5_edge_entry_delay_then_active (p : TdsParams) (px py : ℤ) (t : TouchEM)
    (time : Nat) (invSqrt2 : ℚ) (evs : List TdsFrameEvent) :
    ((tp_edge_motion_set_state p px py t .edgeNew time).state = .edgeNew ∧
     (tp_edge_motion_set_state p px py t .edgeNew time).start_timer =
       some (time + DEFAULT_EDGE_MOTION_DELAY)) ∧
    (t.state = .edgeNew →
      (tp_edge_motion_handle_event p px py t .timeoutStart time).state = .edgeActive ∧
      (tp_edge_motion_handle_event p px py t .timeoutStart time).tick_timer =
        some (time + EDGE_MOTION_INTERVAL)) ∧
    (t.state ≠ .edgeActive → (∀ e ∈ evs, e.ev ≠ TdsEvent.timeoutStart) →
      (tp_edge_motion_run p t evs).state ≠ .edgeActive) ∧
    (t.state ≠ .edgeActive → tp_edge_motion_post_motion t invSqrt2 = Option.none) := by
  refine ⟨⟨rfl, rfl⟩, ?_, fun ht hevs => tds_run_not_active p evs t ht hevs, ?_⟩
  · intro h
    constructor <;> simp [tp_edge_motion_handle_event, h, tp_edge_motion_set_state]
  · intro h
    simp [tp_edge_motion_post_motion, h]

/-- Witness for C5 at a concrete touch in EDGE_NEW (left edge, start timer
armed at 150000), a single motion event, and an arbitrary diagonal factor. -/
theorem c5_edge_entry_delay_then_active_witness :
    ((tp_edge_motion_set_state ⟨30, 900, 500⟩ 10 250
        ⟨.edgeNew, ⟨true, false, false, false⟩, some 150000, Option.none⟩ .edgeNew 999).state =
          .edgeNew ∧
     (tp_edge_motion_set_state ⟨30, 900, 500⟩ 10 250
        ⟨.edgeNew, ⟨true, false, false, false⟩, some 150000, Option.none⟩ .edgeNew 999).start_timer =
          some (999 + DEFAULT_EDGE_MOTION_DELAY)) ∧
    ((tp_edge_motion_handle_event ⟨30, 900, 500⟩ 10 250
        ⟨.edgeNew, ⟨true, false, false, false⟩, some 150000, Option.none⟩ .timeoutStart 999).state =
          .edgeActive ∧
     (tp_edge_motion_handle_event ⟨30, 900, 500⟩ 10 250
        ⟨.edgeNew, ⟨true, false, false, false⟩, some 150000, Option.none⟩ .timeoutStart 999).tick_timer =
          some (999 + EDGE_MOTION_INTERVAL)) ∧
    (tp_edge_motion_run ⟨30, 900, 500⟩
        ⟨.edgeNew, ⟨true, false, false, false⟩, some 150000, Option.none⟩
        [⟨.motion, 10, 250, 5⟩]).state ≠ .edgeActive ∧
    tp_edge_motion_post_motion
        ⟨.edgeNew, ⟨true, false, false, false⟩, some 150000, Option.none⟩ (7 / 5) =
      Option.none := by
  have h := c5_edge_entry_delay_then_active ⟨30, 900, 500⟩ 10 250
    ⟨.edgeNew, ⟨true, false, false, false⟩, some 150000, Option.none⟩ 999 (7 / 5)
    [⟨.motion, 10, 250, 5⟩]
  refine ⟨h.1, h.2.1 rfl, h.2.2.1 (by decide) ?_, h.2.2.2 (by decide)⟩
  intro e he
  simp only [List.mem_singleton] at he
  subst he
  decide

/-! Four-finger swipe FSM (`tp_deal_with_it` and helpers in the 4finger
variant of `evdev-mt-touchpad-edge-motion.c`). -/

/-- `enum swipe_state`. -/
inductive SwipeState where
  | idle
  | detecting
  | verticalActive
  | horizontalActive
  | cooldown
deriving DecidableEq, Repr

/-- `enum swipe_direction`. -/
inductive SwipeDir where
  | none
  | up
  | down
  | left
  | right
deriving DecidableEq, Repr

/-- `SWIPE_DETECTION_THRESHOLD` (3 consecutive movements lock a direction). -/
def SWIPE_DETECTION_THRESHOLD : Int := 3

/-- `SWIPE_MIN_DELTA_THRESHOLD` (0.15). -/
def SWIPE_MIN_DELTA_THRESHOLD : ℚ := 15 / 100

/-- The C constant SWIPE_AXIS_LOCK_RATIO (1.5), renamed here. -/
def SWIPE_AXIS_LOCK_FACTOR : ℚ := 3 / 2

/-- `SWIPE_BASE_INTERVAL_MS` (80 ms shared timer period). -/
def SWIPE_BASE_INTERVAL_MS : Nat := 80

/-- `SWIPE_INACTIVITY_TIMEOUT_MS` (200 ms). -/
def SWIPE_INACTIVITY_TIMEOUT_MS : Nat := 200

/-- `SWIPE_SPEED_SCALE_SLOW` (2.0). -/
def SWIPE_SPEED_SCALE_SLOW : ℚ := 2

/-- `SWIPE_SPEED_SCALE_FAST` (0.5). -/
def SWIPE_SPEED_SCALE_FAST : ℚ := 1 / 2

/-- `SWIPE_FAST_THRESHOLD` (15.0). -/
def SWIPE_FAST_THRESHOLD : ℚ := 15

/-- `SWIPE_SLOW_THRESHOLD` (2.0). -/
def SWIPE_SLOW_THRESHOLD : ℚ := 2

/-- `SWIPE_VOLUME_THRESHOLD` (8.0). -/
def SWIPE_VOLUME_THRESHOLD : ℚ := 8

/-- `SWIPE_BRIGHTNESS_THRESHOLD` (10.0). -/
def SWIPE_BRIGHTNESS_THRESHOLD : ℚ := 10

/-- Keycodes from `linux/input-event-codes.h`. -/
def KEY_VOLUMEUP : Nat := 115

/-- `KEY_VOLUMEDOWN`. -/
def KEY_VOLUMEDOWN : Nat := 114

/-- `KEY_BRIGHTNESSDOWN`. -/
def KEY_BRIGHTNESSDOWN : Nat := 224

/-- `KEY_BRIGHTNESSUP`. -/
def KEY_BRIGHTNESSUP : Nat := 225

/-- One `keyboard_notify_key` call: keycode plus pressed/released. -/
structure KeyEvent where
  keycode : Nat
  pressed : Bool
deriving DecidableEq, Repr

/-- `struct swipe_fsm`, with the `libinput_timer` deadline as `Option Nat`. -/
structure SwipeFsm where
  state : SwipeState
  locked_direction : SwipeDir
  last_event_time : Nat
  last_key_time : Nat
  state_enter_time : Nat
  consecutive_count : Int
  candidate_direction : SwipeDir
  accumulated_delta : ℚ
  total_movement : ℚ
  movement_count : Nat
  keys_sent : Nat
  timer_active : Bool
  timer : Option Nat
deriving DecidableEq, Repr

/-- `get_primary_direction`:

    if (abs_x < SWIPE_MIN_DELTA_THRESHOLD && abs_y < SWIPE_MIN_DELTA_THRESHOLD)
        return SWIPE_DIR_NONE;
    if (abs_y > abs_x * SWIPE_AXIS_LOCK_FACTOR)
        return (delta->y < 0) ? SWIPE_DIR_UP : SWIPE_DIR_DOWN;
    else if (abs_x > abs_y * SWIPE_AXIS_LOCK_FACTOR)
        return (delta->x < 0) ? SWIPE_DIR_LEFT : SWIPE_DIR_RIGHT;
    return SWIPE_DIR_NONE; -/
def get_primary_direction (dx dy : ℚ) : SwipeDir :=
  let abs_x := |dx|
  let abs_y := |dy|
  if abs_x < SWIPE_MIN_DELTA_THRESHOLD ∧ abs_y < SWIPE_MIN_DELTA_THRESHOLD then .none
  else if abs_y > abs_x * SWIPE_AXIS_LOCK_FACTOR then (if dy < 0 then .up else .down)
  else if abs_x > abs_y * SWIPE_AXIS_LOCK_FACTOR then (if dx < 0 then .left else .right)
  else .none

/-- `calculate_speed_multiplier`: 0.5 at or above the fast threshold, 2.0 at
or below the slow threshold, linear interpolation in between. -/
def calculate_speed_multiplier (delta_magnitude : ℚ) : ℚ :=
  if delta_magnitude ≥ SWIPE_FAST_THRESHOLD then SWIPE_SPEED_SCALE_FAST
  else if delta_magnitude ≤ SWIPE_SLOW_THRESHOLD then SWIPE_SPEED_SCALE_SLOW
  else
    let ratio := (delta_magnitude - SWIPE_SLOW_THRESHOLD) /
      (SWIPE_FAST_THRESHOLD - SWIPE_SLOW_THRESHOLD)
    SWIPE_SPEED_SCALE_SLOW + ratio * (SWIPE_SPEED_SCALE_FAST - SWIPE_SPEED_SCALE_SLOW)

/-- `send_key_event`: one press plus one release of `keycode` (no-op for
keycode 0), bumping `keys_sent` and `last_key_time`. -/
def send_key_event (f : SwipeFsm) (keycode : Nat) (time : Nat) : SwipeFsm × List KeyEvent :=
  if keycode = 0 then (f, [])
  else ({ f with keys_sent := f.keys_sent + 1, last_key_time := time },
        [⟨keycode, true⟩, ⟨keycode, false⟩])

/-- The threshold/keycode table of the `switch (fsm.locked_direction)` in
`process_accumulated_movement`. -/
def swipe_threshold_keycode : SwipeDir → Option (ℚ × Nat)
  | .up => some (SWIPE_VOLUME_THRESHOLD, KEY_VOLUMEUP)
  | .down => some (SWIPE_VOLUME_THRESHOLD, KEY_VOLUMEDOWN)
  | .left => some (SWIPE_BRIGHTNESS_THRESHOLD, KEY_BRIGHTNESSDOWN)
  | .right => some (SWIPE_BRIGHTNESS_THRESHOLD, KEY_BRIGHTNESSUP)
  | .none => Option.none

/-- `process_accumulated_movement`: when the locked direction's threshold is
reached by `|accumulated_delta|`, send one key press+release pair and reduce
the accumulation by the threshold, keeping the sign. -/
def process_accumulated_movement (f : SwipeFsm) (time : Nat) : SwipeFsm × List KeyEvent :=
  match swipe_threshold_keycode f.locked_direction with
  | Option.none => (f, [])
  | some (threshold, keycode) =>
      if |f.accumulated_delta| ≥ threshold then
        let r := send_key_event f keycode time
        ({ r.1 with accumulated_delta :=
            if f.accumulated_delta > 0 then f.accumulated_delta - threshold
            else f.accumulated_delta + threshold }, r.2)
      else (f, [])

/-- `swipe_timer_handler`: inactivity reset to idle, cooldown expiry to
idle, otherwise re-run the accumulated-movement check in the active states,
then re-arm the timer if still active. -/
def swipe_timer_handler (f : SwipeFsm) (now : Nat) : SwipeFsm × List KeyEvent :=
  if now - f.last_event_time > SWIPE_INACTIVITY_TIMEOUT_MS * 1000 then
    ({ f with state := .idle, locked_direction := .none, consecutive_count := 0,
              accumulated_delta := 0, timer_active := false, timer := Option.none }, [])
  else if f.state = .cooldown then
    ({ f with state := .idle, locked_direction := .none, consecutive_count := 0,
              accumulated_delta := 0, timer_active := false }, [])
  else
    let r := if f.state = .verticalActive ∨ f.state = .horizontalActive then
        process_accumulated_movement f now
      else (f, [])
    (if r.1.timer_active then
      { r.1 with timer := some (now + SWIPE_BASE_INTERVAL_MS * 1000) }
     else r.1, r.2)

/-- `start_timer_if_needed`. -/
def start_timer_if_needed (f : SwipeFsm) (time : Nat) : SwipeFsm :=
  if !f.timer_active then
    { f with timer_active := true, timer := some (time + SWIPE_BASE_INTERVAL_MS * 1000) }
  else f

/-- `tp_deal_with_it`, the four-finger swipe entry point.  The C code
computes `delta_magnitude = sqrt(dx² + dy²)`; since that square root is
irrational over ℚ it is passed as the `delta_magnitude` argument (the
classification uses only `dx`/`dy`; the magnitude feeds only the speed
multiplier, and every theorem below holds for all magnitude values or
constrains the weighted contribution directly). -/
def tp_deal_with_it (f : SwipeFsm) (time : Nat) (finger_count : Int)
    (dx dy delta_magnitude : ℚ) : SwipeFsm × List KeyEvent :=
  if finger_count ≠ 4 then (f, [])
  else
    let f := { f with last_event_time := time }
    let current_direction := get_primary_direction dx dy
    match f.state with
    | .idle =>
        if current_direction ≠ .none then
          (start_timer_if_needed
            { f with state := .detecting, candidate_direction := current_direction,
                     consecutive_count := 1, state_enter_time := time } time, [])
        else (f, [])
    | .detecting =>
        if current_direction = f.candidate_direction then
          let f := { f with consecutive_count := f.consecutive_count + 1 }
          if f.consecutive_count ≥ SWIPE_DETECTION_THRESHOLD then
            let f := { f with locked_direction := f.candidate_direction,
                              accumulated_delta := 0, total_movement := 0,
                              movement_count := 0, keys_sent := 0 }
            (if f.locked_direction = .up ∨ f.locked_direction = .down then
              { f with state := .verticalActive }
             else { f with state := .horizontalActive }, [])
          else (f, [])
        else if current_direction ≠ .none then
          ({ f with candidate_direction := current_direction, consecutive_count := 1 }, [])
        else (f, [])
    | .verticalActive =>
        if current_direction = .up ∨ current_direction = .down ∨
            current_direction = .none then
          if current_direction ≠ .none then
            let f := if current_direction ≠ f.locked_direction then
                { f with locked_direction := current_direction, accumulated_delta := 0 }
              else f
            let speed_mult := calculate_speed_multiplier delta_magnitude
            let effective_delta := if f.locked_direction = .up then -dy else dy
            let f := { f with
              accumulated_delta := f.accumulated_delta + effective_delta * speed_mult,
              total_movement := f.total_movement + |effective_delta|,
              movement_count := f.movement_count + 1 }
            process_accumulated_movement f time
          else (f, [])
        else (f, [])
    | .horizontalActive =>
        if current_direction = .left ∨ current_direction = .right ∨
            current_direction = .none then
          if current_direction ≠ .none then
            let f := if current_direction ≠ f.locked_direction then
                { f with locked_direction := current_direction, accumulated_delta := 0 }
              else f
            let speed_mult := calculate_speed_multiplier delta_magnitude
            let effective_delta := if f.locked_direction = .right then dx else -dx
            let f := { f with
              accumulated_delta := f.accumulated_delta + effective_delta * speed_mult,
              total_movement := f.total_movement + |effective_delta|,
              movement_count := f.movement_count + 1 }
            process_accumulated_movement f time
          else (f, [])
        else (f, [])
    | .cooldown => (f, [])

/-- One four-finger frame fed to `tp_deal_with_it`. -/
structure SwipeFrame where
  time : Nat
  finger_count : Int
  dx : ℚ
  dy : ℚ
  delta_magnitude : ℚ

/-- Feeding a list of frames through `tp_deal_with_it`, collecting the
emitted key events. -/
def tp_deal_with_frames (f : SwipeFsm) (frames : List SwipeFrame) :
    SwipeFsm × List KeyEvent :=
  frames.foldl (fun acc fr =>
    let r := tp_deal_with_it acc.1 fr.time fr.finger_count fr.dx fr.dy fr.delta_magnitude
    (r.1, acc.2 ++ r.2)) (f, [])

/-- C6: the per-frame direction classifier returns none when both |x| and
|y| are below 0.15; it returns up exactly when the deltas are not both
below 0.15, |y| > |x|·1.5 and y < 0, down exactly when instead y > 0; left
exactly when the deltas are not both below 0.15, |x| > |y|·1.5 and x < 0,
right exactly when instead x > 0; and none in every remaining (ambiguous)
case. -/
theorem c6_get_primary_direction_cases (dx dy : ℚ) :
    (|dx| < SWIPE_MIN_DELTA_THRESHOLD ∧ |dy| < SWIPE_MIN_DELTA_THRESHOLD →
      get_primary_direction dx dy = .none) ∧
    (get_primary_direction dx dy = .up ↔
      ¬(|dx| < SWIPE_MIN_DELTA_THRESHOLD ∧ |dy| < SWIPE_MIN_DELTA_THRESHOLD) ∧
      |dy| > |dx| * SWIPE_AXIS_LOCK_FACTOR ∧ dy < 0) ∧
    (get_primary_direction dx dy = .down ↔
      ¬(|dx| < SWIPE_MIN_DELTA_THRESHOLD ∧ |dy| < SWIPE_MIN_DELTA_THRESHOLD) ∧
      |dy| > |dx| * SWIPE_AXIS_LOCK_FACTOR ∧ dy > 0) ∧
    (get_primary_direction dx dy = .left ↔
      ¬(|dx| < SWIPE_MIN_DELTA_THRESHOLD ∧ |dy| < SWIPE_MIN_DELTA_THRESHOLD) ∧
      |dx| > |dy| * SWIPE_AXIS_LOCK_FACTOR ∧ dx < 0) ∧
    (get_primary_direction dx dy = .right ↔
      ¬(|dx| < SWIPE_MIN_DELTA_THRESHOLD ∧ |dy| < SWIPE_MIN_DELTA_THRESHOLD) ∧
      |dx| > |dy| * SWIPE_AXIS_LOCK_FACTOR ∧ dx > 0) ∧
    (get_primary_direction dx dy = .none ↔
      (|dx| < SWIPE_MIN_DELTA_THRESHOLD ∧ |dy| < SWIPE_MIN_DELTA_THRESHOLD) ∨
      (¬|dy| > |dx| * SWIPE_AXIS_LOCK_FACTOR ∧ ¬|dx| > |dy| * SWIPE_AXIS_LOCK_FACTOR)) := by
  have hdom : ¬(|dy| > |dx| * SWIPE_AXIS_LOCK_FACTOR ∧
      |dx| > |dy| * SWIPE_AXIS_LOCK_FACTOR) := by
    rintro ⟨h1, h2⟩
    rw [SWIPE_AXIS_LOCK_FACTOR] at h1 h2
    have := abs_nonneg dx
    linarith
  by_cases hsmall : |dx| < SWIPE_MIN_DELTA_THRESHOLD ∧ |dy| < SWIPE_MIN_DELTA_THRESHOLD
  · simp [get_primary_direction, hsmall]
  by_cases hydom : |dy| > |dx| * SWIPE_AXIS_LOCK_FACTOR
  · have hnx : ¬|dx| > |dy| * SWIPE_AXIS_LOCK_FACTOR := fun hx => hdom ⟨hydom, hx⟩
    have hdyne : dy ≠ 0 := by
      intro h0
      rw [h0, abs_zero] at hydom
      have := mul_nonneg (abs_nonneg dx)
        (by norm_num [SWIPE_AXIS_LOCK_FACTOR] : (0 : ℚ) ≤ SWIPE_AXIS_LOCK_FACTOR)
      linarith
    by_cases hdy : dy < 0
    · have hndy : ¬dy > 0 := by linarith
      simp [get_primary_direction, hsmall, hydom, hdy, hnx, hndy]
    · have hdy2 : dy > 0 := lt_of_le_of_ne (not_lt.mp hdy) (Ne.symm hdyne)
      simp [get_primary_direction, hsmall, hydom, hdy, hnx, hdy2]
  by_cases hxdom : |dx| > |dy| * SWIPE_AXIS_LOCK_FACTOR
  · have hdxne : dx ≠ 0 := by
      intro h0
      rw [h0, abs_zero] at hxdom
      have := mul_nonneg (abs_nonneg dy)
        (by norm_num [SWIPE_AXIS_LOCK_FACTOR] : (0 : ℚ) ≤ SWIPE_AXIS_LOCK_FACTOR)
      linarith
    by_cases hdx : dx < 0
    · have hndx : ¬dx > 0 := by linarith
      simp [get_primary_direction, hsmall, hydom, hxdom, hdx, hndx]
    · have hdx2 : dx > 0 := lt_of_le_of_ne (not_lt.mp hdx) (Ne.symm hdxne)
      simp [get_primary_direction, hsmall, hydom, hxdom, hdx, hdx2]
  · simp [get_primary_direction, hsmall, hydom, hxdom]

/-- Witness for C6: deltas (0.1, 0.1) are below the noise threshold and
classify as none; delta (0, -1) is dominantly vertical with y < 0 and
classifies as up. -/
theorem c6_get_primary_direction_cases_witness :
    get_primary_direction (1 / 10) (1 / 10) = .none ∧
    get_primary_direction 0 (-1) = .up := by
  constructor
  · refine (c6_get_primary_direction_cases (1 / 10) (1 / 10)).1 ⟨?_, ?_⟩ <;>
      rw [abs_of_pos (by norm_num : (0 : ℚ) < 1 / 10)] <;>
      norm_num [SWIPE_MIN_DELTA_THRESHOLD]
  · refine ((c6_get_primary_direction_cases 0 (-1)).2.1).mpr ⟨?_, ?_, by norm_num⟩
    · rw [abs_of_neg (by norm_num : (-1 : ℚ) < 0)]
      norm_num [SWIPE_MIN_DELTA_THRESHOLD]
    · rw [abs_of_neg (by norm_num : (-1 : ℚ) < 0), abs_zero]
      norm_num [SWIPE_AXIS_LOCK_FACTOR]

/-- C7: on a shared-timer tick, when the time since the last four-finger
frame exceeds the 200 ms inactivity timeout the swipe FSM is force-reset to
idle from any state, clearing the locked direction, the consecutive-match
count and the accumulated displacement (and disarming the timer), with no
key emitted. -/
theorem c7_timer_inactivity_reset (f : SwipeFsm) (now : Nat)
    (hmono : f.last_event_time ≤ now)
    (h : now - f.last_event_time > SWIPE_INACTIVITY_TIMEOUT_MS * 1000) :
    swipe_timer_handler f now =
      ({ f with state := .idle, locked_direction := .none, consecutive_count := 0,
                accumulated_delta := 0, timer_active := false, timer := Option.none }, []) := by
  simp [swipe_timer_handler, h]

/-- Witness for C7: a vertical-active context whose last frame is 300 ms in
the past is reset to idle by the tick. -/
theorem c7_timer_inactivity_reset_witness :
    swipe_timer_handler
        ⟨.verticalActive, .up, 100000, 0, 0, 3, .up, 5, 5, 2, 1, true, some 80000⟩ 400000 =
      ({ (⟨.verticalActive, .up, 100000, 0, 0, 3, .up, 5, 5, 2, 1, true, some 80000⟩ : SwipeFsm)
          with state := .idle, locked_direction := .none, consecutive_count := 0,
               accumulated_delta := 0, timer_active := false, timer := Option.none }, []) :=
  c7_timer_inactivity_reset _ 400000 (by norm_num) (by norm_num [SWIPE_INACTIVITY_TIMEOUT_MS])

/-- C9: the four-finger swipe entry point with a finger count other than 4
is a no-op pass-through: the context is returned unchanged (every field)
and no key event is emitted. -/
theorem c9_non_four_finger_noop (f : SwipeFsm) (time : Nat) (finger_count : Int)
    (dx dy delta_magnitude : ℚ) (h : finger_count ≠ 4) :
    tp_deal_with_it f time finger_count dx dy delta_magnitude = (f, []) := by
  simp [tp_deal_with_it, h]

/-- Witness for C9: a three-finger frame leaves a detecting context
untouched and emits nothing. -/
theorem c9_non_four_finger_noop_witness :
    tp_deal_with_it ⟨.detecting, .none, 7, 0, 0, 2, .up, 0, 0, 0, 0, true, some 80007⟩
        999 3 (5 : ℚ) (-7 : ℚ) (9 : ℚ) =
      (⟨.detecting, .none, 7, 0, 0, 2, .up, 0, 0, 0, 0, true, some 80007⟩, []) :=
  c9_non_four_finger_noop _ 999 3 5 (-7) 9 (by decide)

/-- The threshold/keycode table only yields positive thresholds and nonzero
keycodes. -/
theorem swipe_table_pos (d : SwipeDir) (θ : ℚ) (k : Nat)
    (hk : swipe_threshold_keycode d = some (θ, k)) : 0 < θ ∧ k ≠ 0 := by
  cases d <;>
    simp_all [swipe_threshold_keycode, SWIPE_VOLUME_THRESHOLD,
      SWIPE_BRIGHTNESS_THRESHOLD, KEY_VOLUMEUP, KEY_VOLUMEDOWN,
      KEY_BRIGHTNESSDOWN, KEY_BRIGHTNESSUP] <;>
    obtain ⟨hθ, hkk⟩ := hk <;> subst hθ <;> subst hkk <;> norm_num

/-- When the accumulated displacement reaches the locked direction's
threshold, one check emits exactly one press+release pair of the mapped
keycode and reduces the accumulation by the threshold, keeping its sign. -/
theorem process_accumulated_movement_fire (f : SwipeFsm) (time : Nat) (θ : ℚ) (k : Nat)
    (hk : swipe_threshold_keycode f.locked_direction = some (θ, k))
    (h : |f.accumulated_delta| ≥ θ) :
    process_accumulated_movement f time =
      ({ f with
          accumulated_delta :=
            (if f.accumulated_delta > 0 then f.accumulated_delta - θ
             else f.accumulated_delta + θ)
          keys_sent := f.keys_sent + 1
          last_key_time := time },
       [⟨k, true⟩, ⟨k, false⟩]) := by
  obtain ⟨hθ, hk0⟩ := swipe_table_pos _ _ _ hk
  unfold process_accumulated_movement
  rw [hk]
  simp [h, send_key_event, hk0]

/-- C10: one invocation of the accumulated-movement check emits at most one
key press+release pair; when the accumulation is at least twice the
threshold, it still emits exactly one pair and the residual magnitude is
still at least one threshold (the surplus stays in the accumulator); and on
a shared-timer tick in an active state (without an inactivity timeout) the
check is re-run, emitting exactly what the check emits. -/
theorem c10_single_key_per_check (f : SwipeFsm) (time now : Nat) :
    (process_accumulated_movement f time).2.length ≤ 2 ∧
    (∀ θ : ℚ, ∀ k : Nat, swipe_threshold_keycode f.locked_direction = some (θ, k) →
      |f.accumulated_delta| ≥ 2 * θ →
      (process_accumulated_movement f time).2 = [⟨k, true⟩, ⟨k, false⟩] ∧
      |(process_accumulated_movement f time).1.accumulated_delta| ≥ θ) ∧
    ((f.state = .verticalActive ∨ f.state = .horizontalActive) →
      ¬now - f.last_event_time > SWIPE_INACTIVITY_TIMEOUT_MS * 1000 →
      (swipe_timer_handler f now).2 = (process_accumulated_movement f now).2) := by
  refine ⟨?_, ?_, ?_⟩
  · cases hl : f.locked_direction <;>
      simp [process_accumulated_movement, swipe_threshold_keycode, hl, send_key_event,
        KEY_VOLUMEUP, KEY_VOLUMEDOWN, KEY_BRIGHTNESSDOWN, KEY_BRIGHTNESSUP] <;>
      split_ifs <;> simp
  · intro θ k hk h2
    obtain ⟨hθ, hk0⟩ := swipe_table_pos _ _ _ hk
    have h1 : |f.accumulated_delta| ≥ θ := by linarith
    rw [process_accumulated_movement_fire f time θ k hk h1]
    refine ⟨rfl, ?_⟩
    show |(if f.accumulated_delta > 0 then f.accumulated_delta - θ
      else f.accumulated_delta + θ)| ≥ θ
    by_cases ha : f.accumulated_delta > 0
    · rw [abs_of_pos ha] at h2
      rw [if_pos ha, abs_of_nonneg (by linarith)]
      linarith
    · rw [if_neg ha]
      push_neg at ha
      rw [abs_of_nonpos ha] at h2
      rw [abs_of_nonpos (by linarith)]
      linarith
  · intro hactive hto
    have hc : ¬f.state = .cooldown := by
      rcases hactive with h | h <;> simp [h]
    unfold swipe_timer_handler
    rw [if_neg hto, if_neg hc, if_pos hactive]

/-- Witness for C10: an up-locked vertical-active context with accumulation
16 = 2×8 emits exactly one volume-up pair, keeps residual ≥ 8, and the tick
at time 1000 re-runs the check. -/
theorem c10_single_key_per_check_witness :
    (process_accumulated_movement
        ⟨.verticalActive, .up, 900, 0, 0, 3, .up, 16, 16, 2, 0, true, some 80000⟩ 1000).2 =
      [⟨KEY_VOLUMEUP, true⟩, ⟨KEY_VOLUMEUP, false⟩] ∧
    |(process_accumulated_movement
        ⟨.verticalActive, .up, 900, 0, 0, 3, .up, 16, 16, 2, 0, true, some 80000⟩ 1000).1.accumulated_delta| ≥
      SWIPE_VOLUME_THRESHOLD ∧
    (swipe_timer_handler
        ⟨.verticalActive, .up, 900, 0, 0, 3, .up, 16, 16, 2, 0, true, some 80000⟩ 1000).2 =
      (process_accumulated_movement
        ⟨.verticalActive, .up, 900, 0, 0, 3, .up, 16, 16, 2, 0, true, some 80000⟩ 1000).2 := by
  have h := c10_single_key_per_check
    ⟨.verticalActive, .up, 900, 0, 0, 3, .up, 16, 16, 2, 0, true, some 80000⟩ 1000 1000
  have h2 := h.2.1 SWIPE_VOLUME_THRESHOLD KEY_VOLUMEUP rfl
    (by norm_num [SWIPE_VOLUME_THRESHOLD])
  exact ⟨h2.1, h2.2, h.2.2 (Or.inl rfl) (by norm_num [SWIPE_INACTIVITY_TIMEOUT_MS])⟩


/-- One frame from idle either stays idle or enters detecting with a
consecutive count of 1. -/
theorem swipe_step_from_idle (f : SwipeFsm) (t : Nat) (n : Int) (dx dy m : ℚ)
    (h : f.state = .idle) :
    (tp_deal_with_it f t n dx dy m).1.state = .idle ∨
    ((tp_deal_with_it f t n dx dy m).1.state = .detecting ∧
     (tp_deal_with_it f t n dx dy m).1.consecutive_count = 1) := by
  by_cases hn : n = 4
  · subst hn
    simp only [tp_deal_with_it, if_neg (by decide : ¬(4 : Int) ≠ 4)]
    simp only [h]
    split_ifs with hd
    · right
      constructor <;> simp [start_timer_if_needed] <;> split <;> simp
    · left
      rfl
  · simp [tp_deal_with_it, hn, h]

/-- One frame from detecting with a consecutive count below 2 stays in
detecting (the lock needs the incremented count to reach 3). -/
theorem swipe_step_from_detecting_low (f : SwipeFsm) (t : Nat) (n : Int) (dx dy m : ℚ)
    (h : f.state = .detecting) (hc : f.consecutive_count < 2) :
    (tp_deal_with_it f t n dx dy m).1.state = .detecting := by
  by_cases hn : n = 4
  · subst hn
    simp only [tp_deal_with_it, if_neg (by decide : ¬(4 : Int) ≠ 4)]
    simp only [h]
    split_ifs with hd1 hd2 hd3 <;>
      first
        | rfl
        | exact absurd hd2 (by simp only [SWIPE_DETECTION_THRESHOLD]; omega)
  · simp [tp_deal_with_it, hn, h]


/-- C4: in the detecting state (with a non-none candidate, as in every
reachable detecting state, and a count of at most 2): a frame classified as
the candidate direction increments the consecutive count, reaches an active
state exactly when the count reaches 3, and at lock-in sets the locked
direction to the candidate, resets the accumulator and the key counter, and
picks vertical-active exactly for up/down; a none frame changes nothing but
the last-event timestamp; a different non-none direction resets the
candidate to it with count 1; and from idle, fewer than 3 frames never
reach an active state. -/
theorem c4_detecting_transitions (f : SwipeFsm) (time : Nat) (dx dy m : ℚ)
    (hstate : f.state = .detecting) (hcand : f.candidate_direction ≠ .none)
    (hc2 : f.consecutive_count ≤ 2) :
    (get_primary_direction dx dy = f.candidate_direction →
      (tp_deal_with_it f time 4 dx dy m).1.consecutive_count = f.consecutive_count + 1 ∧
      (tp_deal_with_it f time 4 dx dy m).2 = [] ∧
      (((tp_deal_with_it f time 4 dx dy m).1.state = .verticalActive ∨
        (tp_deal_with_it f time 4 dx dy m).1.state = .horizontalActive) ↔
        f.consecutive_count + 1 = 3) ∧
      (f.consecutive_count + 1 = 3 →
        (tp_deal_with_it f time 4 dx dy m).1.locked_direction = f.candidate_direction ∧
        (tp_deal_with_it f time 4 dx dy m).1.accumulated_delta = 0 ∧
        (tp_deal_with_it f time 4 dx dy m).1.keys_sent = 0 ∧
        ((tp_deal_with_it f time 4 dx dy m).1.state = .verticalActive ↔
          (f.candidate_direction = .up ∨ f.candidate_direction = .down))) ∧
      (f.consecutive_count + 1 ≠ 3 →
        (tp_deal_with_it f time 4 dx dy m).1 =
          { f with last_event_time := time
                   consecutive_count := f.consecutive_count + 1 })) ∧
    (get_primary_direction dx dy = .none →
      (tp_deal_with_it f time 4 dx dy m).1 = { f with last_event_time := time } ∧
      (tp_deal_with_it f time 4 dx dy m).2 = []) ∧
    (get_primary_direction dx dy ≠ .none →
     get_primary_direction dx dy ≠ f.candidate_direction →
      (tp_deal_with_it f time 4 dx dy m).1 =
        { f with last_event_time := time
                 candidate_direction := get_primary_direction dx dy
                 consecutive_count := 1 } ∧
      (tp_deal_with_it f time 4 dx dy m).2 = []) ∧
    (∀ (g : SwipeFsm) (frames : List SwipeFrame), g.state = .idle → frames.length ≤ 2 →
      (tp_deal_with_frames g frames).1.state ≠ .verticalActive ∧
      (tp_deal_with_frames g frames).1.state ≠ .horizontalActive) := by
  refine ⟨?_, ?_, ?_, ?_⟩
  · intro hd
    simp only [tp_deal_with_it, if_neg (by decide : ¬(4 : Int) ≠ 4), hstate]
    rw [if_pos (by simp [hd])]
    by_cases hlock : f.consecutive_count + 1 ≥ SWIPE_DETECTION_THRESHOLD
    · have h3 : f.consecutive_count + 1 = 3 := by
        simp only [SWIPE_DETECTION_THRESHOLD] at hlock
        omega
      rw [if_pos (by simpa using hlock)]
      refine ⟨?_, ?_, ?_, ?_, ?_⟩
      · split <;> rfl
      · split <;> rfl
      · constructor
        · intro _; exact h3
        · intro _; split <;> simp
      · intro _
        refine ⟨?_, ?_, ?_, ?_⟩
        · split <;> rfl
        · split <;> rfl
        · split <;> rfl
        · split <;> simp_all
      · intro hne; exact absurd h3 hne
    · rw [if_neg (by simpa using hlock)]
      have h3 : f.consecutive_count + 1 ≠ 3 := by
        simp only [SWIPE_DETECTION_THRESHOLD] at hlock
        omega
      refine ⟨rfl, rfl, ?_, fun h => absurd h h3, fun _ => rfl⟩
      simp [h3]
  · intro hd
    have hne : ¬get_primary_direction dx dy = f.candidate_direction := by
      rw [hd]; exact fun h => hcand h.symm
    simp only [tp_deal_with_it, if_neg (by decide : ¬(4 : Int) ≠ 4), hstate]
    rw [if_neg hne, if_neg (by simp [hd])]
    exact ⟨rfl, rfl⟩
  · intro hd hne
    simp only [tp_deal_with_it, if_neg (by decide : ¬(4 : Int) ≠ 4), hstate]
    rw [if_neg hne, if_pos hd]
    exact ⟨rfl, rfl⟩
  · rintro g (_ | ⟨a, _ | ⟨b, _ | ⟨c, rest⟩⟩⟩) hg hlen
    · constructor <;> simp [tp_deal_with_frames, hg]
    · have h1 := swipe_step_from_idle g a.time a.finger_count a.dx a.dy a.delta_magnitude hg
      simp only [tp_deal_with_frames, List.foldl_cons, List.foldl_nil]
      rcases h1 with h1 | ⟨h1, _⟩ <;> simp [h1]
    · have h1 := swipe_step_from_idle g a.time a.finger_count a.dx a.dy a.delta_magnitude hg
      simp only [tp_deal_with_frames, List.foldl_cons, List.foldl_nil]
      rcases h1 with h1 | ⟨h1, hc1⟩
      · have h2 := swipe_step_from_idle _ b.time b.finger_count b.dx b.dy b.delta_magnitude h1
        rcases h2 with h2 | ⟨h2, _⟩ <;> simp [h2]
      · have h2 := swipe_step_from_detecting_low _ b.time b.finger_count b.dx b.dy
          b.delta_magnitude h1 (by omega)
        simp [h2]
    · simp at hlen


/-- Witness for C4: a detecting context with candidate up and count 2
locks to vertical-active with count 3 and key counter reset on an up frame;
and two up frames from idle do not reach vertical-active. -/
theorem c4_detecting_transitions_witness :
    (tp_deal_with_it ⟨.detecting, .none, 0, 0, 0, 2, .up, 5, 5, 1, 7, true, some 1⟩
        50 4 0 (-1) 1).1.consecutive_count = 2 + 1 ∧
    ((tp_deal_with_it ⟨.detecting, .none, 0, 0, 0, 2, .up, 5, 5, 1, 7, true, some 1⟩
        50 4 0 (-1) 1).1.state = .verticalActive ∨
     (tp_deal_with_it ⟨.detecting, .none, 0, 0, 0, 2, .up, 5, 5, 1, 7, true, some 1⟩
        50 4 0 (-1) 1).1.state = .horizontalActive) ∧
    (tp_deal_with_it ⟨.detecting, .none, 0, 0, 0, 2, .up, 5, 5, 1, 7, true, some 1⟩
        50 4 0 (-1) 1).1.keys_sent = 0 ∧
    (tp_deal_with_frames ⟨.idle, .none, 0, 0, 0, 0, .none, 0, 0, 0, 0, false, Option.none⟩
        [⟨1, 4, 0, -1, 1⟩, ⟨2, 4, 0, -1, 1⟩]).1.state ≠ .verticalActive := by
  have h := c4_detecting_transitions
    ⟨.detecting, .none, 0, 0, 0, 2, .up, 5, 5, 1, 7, true, some 1⟩ 50 0 (-1) 1
    rfl (by decide) (by decide)
  have hd : get_primary_direction (0 : ℚ) (-1) = SwipeDir.up := by
    norm_num [get_primary_direction, SWIPE_MIN_DELTA_THRESHOLD, SWIPE_AXIS_LOCK_FACTOR]
  have h1 := h.1 hd
  refine ⟨h1.1, (h1.2.2.1).mpr (by norm_num), (h1.2.2.2.1 (by norm_num)).2.2.1, ?_⟩
  exact (h.2.2.2 ⟨.idle, .none, 0, 0, 0, 0, .none, 0, 0, 0, 0, false, Option.none⟩
    [⟨1, 4, 0, -1, 1⟩, ⟨2, 4, 0, -1, 1⟩] rfl (by simp)).1



/-- Below the threshold, the accumulated-movement check changes nothing
and emits nothing. -/
theorem process_accumulated_movement_hold (f : SwipeFsm) (time : Nat) (θ : ℚ) (k : Nat)
    (hk : swipe_threshold_keycode f.locked_direction = some (θ, k))
    (h : ¬|f.accumulated_delta| ≥ θ) :
    process_accumulated_movement f time = (f, []) := by
  unfold process_accumulated_movement
  rw [hk]
  simp [h]

/-- One accumulated-movement check starting with a nonnegative
accumulation below twice the threshold keeps state and locked direction,
lands back in [0, threshold), and conserves keys_sent·threshold +
accumulation. -/
theorem process_accum_window (f : SwipeFsm) (time : Nat) (θ : ℚ) (k : Nat)
    (hk : swipe_threshold_keycode f.locked_direction = some (θ, k))
    (ha0 : 0 ≤ f.accumulated_delta) (ha2 : f.accumulated_delta < 2 * θ) :
    (process_accumulated_movement f time).1.state = f.state ∧
    (process_accumulated_movement f time).1.locked_direction = f.locked_direction ∧
    0 ≤ (process_accumulated_movement f time).1.accumulated_delta ∧
    (process_accumulated_movement f time).1.accumulated_delta < θ ∧
    ((process_accumulated_movement f time).1.keys_sent : ℚ) * θ +
        (process_accumulated_movement f time).1.accumulated_delta =
      (f.keys_sent : ℚ) * θ + f.accumulated_delta := by
  obtain ⟨hθ, hk0⟩ := swipe_table_pos _ _ _ hk
  by_cases hfire : |f.accumulated_delta| ≥ θ
  · rw [abs_of_nonneg ha0] at hfire
    rw [process_accumulated_movement_fire f time θ k hk (by rwa [abs_of_nonneg ha0])]
    have hgt : f.accumulated_delta > 0 := lt_of_lt_of_le hθ hfire
    refine ⟨rfl, rfl, ?_, ?_, ?_⟩
    · show 0 ≤ (if f.accumulated_delta > 0 then f.accumulated_delta - θ
        else f.accumulated_delta + θ)
      rw [if_pos hgt]
      linarith
    · show (if f.accumulated_delta > 0 then f.accumulated_delta - θ
        else f.accumulated_delta + θ) < θ
      rw [if_pos hgt]
      linarith
    · show ((f.keys_sent + 1 : ℕ) : ℚ) * θ +
          (if f.accumulated_delta > 0 then f.accumulated_delta - θ
           else f.accumulated_delta + θ) = (f.keys_sent : ℚ) * θ + f.accumulated_delta
      rw [if_pos hgt]
      push_cast
      ring
  · rw [process_accumulated_movement_hold f time θ k hk hfire]
    rw [abs_of_nonneg ha0, not_le] at hfire
    exact ⟨rfl, rfl, ha0, hfire, rfl⟩



/-- In vertical-active, a frame classified as the locked direction
reduces to the accumulated-movement check on the context with the weighted
delta added. -/
theorem tp_deal_vertical_step (f : SwipeFsm) (time : Nat) (dx dy m : ℚ)
    (hstate : f.state = .verticalActive)
    (hdir : get_primary_direction dx dy = f.locked_direction)
    (hud : f.locked_direction = .up ∨ f.locked_direction = .down) :
    tp_deal_with_it f time 4 dx dy m =
      process_accumulated_movement
        { f with
            last_event_time := time
            accumulated_delta := f.accumulated_delta +
              (if f.locked_direction = .up then -dy else dy) *
                calculate_speed_multiplier m
            total_movement := f.total_movement +
              |(if f.locked_direction = .up then -dy else dy)|
            movement_count := f.movement_count + 1 } time := by
  obtain ⟨st, lk, lev, lkt, sen, cc, cd, ad, tm, mc, ks, ta, ti⟩ := f
  replace hstate : st = .verticalActive := hstate
  subst hstate
  replace hdir : get_primary_direction dx dy = lk := hdir
  replace hud : lk = .up ∨ lk = .down := hud
  simp only [tp_deal_with_it, if_neg (by decide : ¬(4 : Int) ≠ 4), hdir]
  rw [if_pos (by rcases hud with h | h <;> simp [h]),
    if_pos (by rcases hud with h | h <;> simp [h]),
    if_neg (by simp)]

/-- In horizontal-active, a frame classified as the locked direction
reduces to the accumulated-movement check on the context with the weighted
delta added. -/
theorem tp_deal_horizontal_step (f : SwipeFsm) (time : Nat) (dx dy m : ℚ)
    (hstate : f.state = .horizontalActive)
    (hdir : get_primary_direction dx dy = f.locked_direction)
    (hlr : f.locked_direction = .left ∨ f.locked_direction = .right) :
    tp_deal_with_it f time 4 dx dy m =
      process_accumulated_movement
        { f with
            last_event_time := time
            accumulated_delta := f.accumulated_delta +
              (if f.locked_direction = .right then dx else -dx) *
                calculate_speed_multiplier m
            total_movement := f.total_movement +
              |(if f.locked_direction = .right then dx else -dx)|
            movement_count := f.movement_count + 1 } time := by
  obtain ⟨st, lk, lev, lkt, sen, cc, cd, ad, tm, mc, ks, ta, ti⟩ := f
  replace hstate : st = .horizontalActive := hstate
  subst hstate
  replace hdir : get_primary_direction dx dy = lk := hdir
  replace hlr : lk = .left ∨ lk = .right := hlr
  simp only [tp_deal_with_it, if_neg (by decide : ¬(4 : Int) ≠ 4), hdir]
  rw [if_pos (by rcases hlr with h | h <;> simp [h]),
    if_pos (by rcases hlr with h | h <;> simp [h]),
    if_neg (by simp)]

/-- The active state locking direction `d`. -/
def swipe_active_state : SwipeDir → SwipeState
  | .up | .down => .verticalActive
  | .left | .right => .horizontalActive
  | .none => .idle

/-- The signed, axis-appropriate, speed-weighted contribution of one frame
to the accumulator while direction `d` is locked: the `effective_delta *
speed_mult` term of the active-state branches of `tp_deal_with_it`. -/
def swipe_frame_weight (d : SwipeDir) (fr : SwipeFrame) : ℚ :=
  (match d with
   | .up => -fr.dy
   | .down => fr.dy
   | .left => -fr.dx
   | .right => fr.dx
   | .none => 0) * calculate_speed_multiplier fr.delta_magnitude

/-- One matching-direction frame in the active state locking `d`
preserves state and lock, keeps the accumulation in [0, threshold) when the
frame's weight is in (0, threshold], and conserves keys_sent·threshold +
accumulation up to the added weight. -/
theorem c3h_step (d : SwipeDir) (θ : ℚ) (k : Nat)
    (htab : swipe_threshold_keycode d = some (θ, k))
    (f : SwipeFsm) (fr : SwipeFrame)
    (hstate : f.state = swipe_active_state d) (hlock : f.locked_direction = d)
    (hfc : fr.finger_count = 4)
    (hdir : get_primary_direction fr.dx fr.dy = d)
    (ha0 : 0 ≤ f.accumulated_delta) (haθ : f.accumulated_delta < θ)
    (hw0 : 0 < swipe_frame_weight d fr) (hwθ : swipe_frame_weight d fr ≤ θ) :
    (tp_deal_with_it f fr.time fr.finger_count fr.dx fr.dy fr.delta_magnitude).1.state =
      swipe_active_state d ∧
    (tp_deal_with_it f fr.time fr.finger_count fr.dx fr.dy
      fr.delta_magnitude).1.locked_direction = d ∧
    0 ≤ (tp_deal_with_it f fr.time fr.finger_count fr.dx fr.dy
      fr.delta_magnitude).1.accumulated_delta ∧
    (tp_deal_with_it f fr.time fr.finger_count fr.dx fr.dy
      fr.delta_magnitude).1.accumulated_delta < θ ∧
    ((tp_deal_with_it f fr.time fr.finger_count fr.dx fr.dy
        fr.delta_magnitude).1.keys_sent : ℚ) * θ +
        (tp_deal_with_it f fr.time fr.finger_count fr.dx fr.dy
          fr.delta_magnitude).1.accumulated_delta =
      (f.keys_sent : ℚ) * θ + f.accumulated_delta + swipe_frame_weight d fr := by
  rw [hfc]
  have hvert : d = .up ∨ d = .down ∨ d = .left ∨ d = .right := by
    cases d
    · exact absurd htab (by simp [swipe_threshold_keycode])
    all_goals simp
  rcases hvert with rfl | rfl | rfl | rfl
  case inl =>
    rw [tp_deal_vertical_step f fr.time fr.dx fr.dy fr.delta_magnitude hstate
      (by rw [hdir, hlock]) (Or.inl hlock)]
    rw [hlock]
    rw [show (if (SwipeDir.up : SwipeDir) = .up then -fr.dy else fr.dy) *
        calculate_speed_multiplier fr.delta_magnitude = swipe_frame_weight .up fr from by
      rw [if_pos rfl]; rfl]
    have hwin := process_accum_window
      { f with
          locked_direction := SwipeDir.up
          last_event_time := fr.time
          accumulated_delta := f.accumulated_delta + swipe_frame_weight .up fr
          total_movement := f.total_movement +
            |(if (SwipeDir.up : SwipeDir) = .up then -fr.dy else fr.dy)|
          movement_count := f.movement_count + 1 } fr.time θ k
      htab (by simpa using by linarith) (by simpa using by linarith)
    refine ⟨by rw [hwin.1]; exact hstate, by rw [hwin.2.1], hwin.2.2.1, hwin.2.2.2.1, ?_⟩
    rw [hwin.2.2.2.2]
    show (f.keys_sent : ℚ) * θ + (f.accumulated_delta + swipe_frame_weight .up fr) = _
    ring
  case inr.inl =>
    rw [tp_deal_vertical_step f fr.time fr.dx fr.dy fr.delta_magnitude hstate
      (by rw [hdir, hlock]) (Or.inr hlock)]
    rw [hlock]
    rw [show (if (SwipeDir.down : SwipeDir) = .up then -fr.dy else fr.dy) *
        calculate_speed_multiplier fr.delta_magnitude = swipe_frame_weight .down fr from by
      rw [if_neg (by simp)]; rfl]
    have hwin := process_accum_window
      { f with
          locked_direction := SwipeDir.down
          last_event_time := fr.time
          accumulated_delta := f.accumulated_delta + swipe_frame_weight .down fr
          total_movement := f.total_movement +
            |(if (SwipeDir.down : SwipeDir) = .up then -fr.dy else fr.dy)|
          movement_count := f.movement_count + 1 } fr.time θ k
      htab (by simpa using by linarith) (by simpa using by linarith)
    refine ⟨by rw [hwin.1]; exact hstate, by rw [hwin.2.1], hwin.2.2.1, hwin.2.2.2.1, ?_⟩
    rw [hwin.2.2.2.2]
    show (f.keys_sent : ℚ) * θ + (f.accumulated_delta + swipe_frame_weight .down fr) = _
    ring
  case inr.inr.inl =>
    rw [tp_deal_horizontal_step f fr.time fr.dx fr.dy fr.delta_magnitude hstate
      (by rw [hdir, hlock]) (Or.inl hlock)]
    rw [hlock]
    rw [show (if (SwipeDir.left : SwipeDir) = .right then fr.dx else -fr.dx) *
        calculate_speed_multiplier fr.delta_magnitude = swipe_frame_weight .left fr from by
      rw [if_neg (by simp)]; rfl]
    have hwin := process_accum_window
      { f with
          locked_direction := SwipeDir.left
          last_event_time := fr.time
          accumulated_delta := f.accumulated_delta + swipe_frame_weight .left fr
          total_movement := f.total_movement +
            |(if (SwipeDir.left : SwipeDir) = .right then fr.dx else -fr.dx)|
          movement_count := f.movement_count + 1 } fr.time θ k
      htab (by simpa using by linarith) (by simpa using by linarith)
    refine ⟨by rw [hwin.1]; exact hstate, by rw [hwin.2.1], hwin.2.2.1, hwin.2.2.2.1, ?_⟩
    rw [hwin.2.2.2.2]
    show (f.keys_sent : ℚ) * θ + (f.accumulated_delta + swipe_frame_weight .left fr) = _
    ring
  case inr.inr.inr =>
    rw [tp_deal_horizontal_step f fr.time fr.dx fr.dy fr.delta_magnitude hstate
      (by rw [hdir, hlock]) (Or.inr hlock)]
    rw [hlock]
    rw [show (if (SwipeDir.right : SwipeDir) = .right then fr.dx else -fr.dx) *
        calculate_speed_multiplier fr.delta_magnitude = swipe_frame_weight .right fr from by
      rw [if_pos rfl]; rfl]
    have hwin := process_accum_window
      { f with
          locked_direction := SwipeDir.right
          last_event_time := fr.time
          accumulated_delta := f.accumulated_delta + swipe_frame_weight .right fr
          total_movement := f.total_movement +
            |(if (SwipeDir.right : SwipeDir) = .right then fr.dx else -fr.dx)|
          movement_count := f.movement_count + 1 } fr.time θ k
      htab (by simpa using by linarith) (by simpa using by linarith)
    refine ⟨by rw [hwin.1]; exact hstate, by rw [hwin.2.1], hwin.2.2.1, hwin.2.2.2.1, ?_⟩
    rw [hwin.2.2.2.2]
    show (f.keys_sent : ℚ) * θ + (f.accumulated_delta + swipe_frame_weight .right fr) = _
    ring

/-- The state component of `tp_deal_with_frames` ignores the accumulated
event list. -/
theorem tp_deal_with_frames_fst (f : SwipeFsm) (frames : List SwipeFrame) :
    (tp_deal_with_frames f frames).1 =
      frames.foldl (fun g fr =>
        (tp_deal_with_it g fr.time fr.finger_count fr.dx fr.dy fr.delta_magnitude).1) f := by
  suffices h : ∀ p : SwipeFsm × List KeyEvent,
      (frames.foldl (fun acc fr =>
        let r := tp_deal_with_it acc.1 fr.time fr.finger_count fr.dx fr.dy fr.delta_magnitude
        (r.1, acc.2 ++ r.2)) p).1 =
      frames.foldl (fun g fr =>
        (tp_deal_with_it g fr.time fr.finger_count fr.dx fr.dy fr.delta_magnitude).1) p.1 by
    exact h (f, [])
  induction frames with
  | nil => intro p; rfl
  | cons fr rest ih => intro p; simp only [List.foldl_cons]; exact ih _

/-- The step invariant extended over a frame list. -/
theorem c3h_run (d : SwipeDir) (θ : ℚ) (k : Nat)
    (htab : swipe_threshold_keycode d = some (θ, k))
    (frames : List SwipeFrame)
    (hframes : ∀ fr ∈ frames, fr.finger_count = 4 ∧
      get_primary_direction fr.dx fr.dy = d ∧
      0 < swipe_frame_weight d fr ∧ swipe_frame_weight d fr ≤ θ)
    (f : SwipeFsm)
    (hstate : f.state = swipe_active_state d) (hlock : f.locked_direction = d)
    (ha0 : 0 ≤ f.accumulated_delta) (haθ : f.accumulated_delta < θ) :
    (tp_deal_with_frames f frames).1.state = swipe_active_state d ∧
    (tp_deal_with_frames f frames).1.locked_direction = d ∧
    0 ≤ (tp_deal_with_frames f frames).1.accumulated_delta ∧
    (tp_deal_with_frames f frames).1.accumulated_delta < θ ∧
    ((tp_deal_with_frames f frames).1.keys_sent : ℚ) * θ +
        (tp_deal_with_frames f frames).1.accumulated_delta =
      (f.keys_sent : ℚ) * θ + f.accumulated_delta +
        (frames.map (swipe_frame_weight d)).sum := by
  rw [tp_deal_with_frames_fst]
  induction frames generalizing f with
  | nil =>
      refine ⟨hstate, hlock, ha0, haθ, ?_⟩
      simp
  | cons fr rest ih =>
      obtain ⟨hfc, hdir, hw0, hwθ⟩ := hframes fr (by simp)
      have hstep := c3h_step d θ k htab f fr hstate hlock hfc hdir ha0 haθ hw0 hwθ
      have ihs := ih (fun x hx => hframes x (by simp [hx])) _
        hstep.1 hstep.2.1 hstep.2.2.1 hstep.2.2.2.1
      simp only [List.foldl_cons]
      refine ⟨ihs.1, ihs.2.1, ihs.2.2.1, ihs.2.2.2.1, ?_⟩
      rw [ihs.2.2.2.2, hstep.2.2.2.2]
      simp only [List.map_cons, List.sum_cons]
      ring

/-- C3 (amended): the locked direction maps to thresholds/keycodes
up→volume-up (8), down→volume-down (8), left→brightness-down (10),
right→brightness-up (10); whenever |accumulated_delta| reaches the locked
direction's threshold, exactly one press+release pair of the mapped keycode
is emitted and the accumulation is reduced by the threshold with its sign
preserved; and for any sequence of frames locked on `d`, each contributing
a weighted displacement of at most one threshold, whose weighted
displacements total exactly 2×threshold, exactly 2 key pairs fire and the
final residual accumulation is 0. -/
theorem c3_leaky_accumulator_amended (f1 : SwipeFsm) (time1 : Nat) (θ1 : ℚ) (k1 : Nat)
    (d : SwipeDir) (θ : ℚ) (k : Nat) (frames : List SwipeFrame) (f : SwipeFsm) :
    (swipe_threshold_keycode .up = some (SWIPE_VOLUME_THRESHOLD, KEY_VOLUMEUP) ∧
     swipe_threshold_keycode .down = some (SWIPE_VOLUME_THRESHOLD, KEY_VOLUMEDOWN) ∧
     swipe_threshold_keycode .left = some (SWIPE_BRIGHTNESS_THRESHOLD, KEY_BRIGHTNESSDOWN) ∧
     swipe_threshold_keycode .right = some (SWIPE_BRIGHTNESS_THRESHOLD, KEY_BRIGHTNESSUP)) ∧
    (swipe_threshold_keycode f1.locked_direction = some (θ1, k1) →
      |f1.accumulated_delta| ≥ θ1 →
      process_accumulated_movement f1 time1 =
        ({ f1 with
            accumulated_delta :=
              (if f1.accumulated_delta > 0 then f1.accumulated_delta - θ1
               else f1.accumulated_delta + θ1)
            keys_sent := f1.keys_sent + 1
            last_key_time := time1 },
         [⟨k1, true⟩, ⟨k1, false⟩])) ∧
    (swipe_threshold_keycode d = some (θ, k) →
     f.state = swipe_active_state d → f.locked_direction = d →
     f.accumulated_delta = 0 → f.keys_sent = 0 →
     (∀ fr ∈ frames, fr.finger_count = 4 ∧
        get_primary_direction fr.dx fr.dy = d ∧
        0 < swipe_frame_weight d fr ∧ swipe_frame_weight d fr ≤ θ) →
     (frames.map (swipe_frame_weight d)).sum = 2 * θ →
      (tp_deal_with_frames f frames).1.keys_sent = 2 ∧
      (tp_deal_with_frames f frames).1.accumulated_delta = 0) := by
  refine ⟨⟨rfl, rfl, rfl, rfl⟩, ?_, ?_⟩
  · intro h1 h2
    exact process_accumulated_movement_fire f1 time1 θ1 k1 h1 h2
  · intro htab hstate hlock ha hk hframes hsum
    obtain ⟨hθ, _⟩ := swipe_table_pos d θ k htab
    have hrun := c3h_run d θ k htab frames hframes f hstate hlock
      (by rw [ha]) (by rw [ha]; exact hθ)
    obtain ⟨_, _, hge0, hgθ, heq⟩ := hrun
    rw [ha, hk, hsum] at heq
    push_cast at heq
    have hup : ((tp_deal_with_frames f frames).1.keys_sent : ℚ) ≤ 2 := by
      have hm : ((tp_deal_with_frames f frames).1.keys_sent : ℚ) * θ ≤ 2 * θ := by linarith
      exact le_of_mul_le_mul_right hm hθ
    have hlo : (1 : ℚ) < ((tp_deal_with_frames f frames).1.keys_sent : ℚ) := by
      have hm : 1 * θ < ((tp_deal_with_frames f frames).1.keys_sent : ℚ) * θ := by linarith
      exact lt_of_mul_lt_mul_right hm (le_of_lt hθ)
    have h2 : (tp_deal_with_frames f frames).1.keys_sent ≤ 2 := by exact_mod_cast hup
    have h1 : 1 < (tp_deal_with_frames f frames).1.keys_sent := by exact_mod_cast hlo
    have hks : (tp_deal_with_frames f frames).1.keys_sent = 2 := by omega
    refine ⟨hks, ?_⟩
    rw [hks] at heq
    push_cast at heq
    linarith

/-- C3 counterexample to the claim as stated: the single-frame sequence
[(dx 0, dy -32, magnitude 32)] from a freshly locked-up vertical-active
context has total weighted displacement 32 × 0.5 = 16 = 2×8, yet exactly
one key pair fires and the residual accumulation is 8, not 0 — one
invocation of the check emits at most one key pair. -/
theorem c3_leaky_accumulator_counterexample :
    (([⟨1000, 4, 0, -32, 32⟩] : List SwipeFrame).map
        (swipe_frame_weight .up)).sum = 2 * SWIPE_VOLUME_THRESHOLD ∧
    get_primary_direction (0 : ℚ) (-32) = .up ∧
    (tp_deal_with_frames
        ⟨.verticalActive, .up, 0, 0, 0, 3, .up, 0, 0, 0, 0, true, some 80000⟩
        [⟨1000, 4, 0, -32, 32⟩]).1.keys_sent = 1 ∧
    (tp_deal_with_frames
        ⟨.verticalActive, .up, 0, 0, 0, 3, .up, 0, 0, 0, 0, true, some 80000⟩
        [⟨1000, 4, 0, -32, 32⟩]).1.accumulated_delta = SWIPE_VOLUME_THRESHOLD := by
  have hdir : get_primary_direction (0 : ℚ) (-32) = SwipeDir.up := by
    norm_num [get_primary_direction, SWIPE_MIN_DELTA_THRESHOLD, SWIPE_AXIS_LOCK_FACTOR]
  refine ⟨?_, hdir, ?_⟩
  · norm_num [swipe_frame_weight, calculate_speed_multiplier, SWIPE_FAST_THRESHOLD,
      SWIPE_SPEED_SCALE_FAST, SWIPE_VOLUME_THRESHOLD]
  · constructor <;>
      · norm_num [tp_deal_with_frames, tp_deal_with_it, hdir,
          calculate_speed_multiplier, SWIPE_FAST_THRESHOLD, SWIPE_SPEED_SCALE_FAST,
          SWIPE_SLOW_THRESHOLD, process_accumulated_movement, swipe_threshold_keycode,
          SWIPE_VOLUME_THRESHOLD, send_key_event, KEY_VOLUMEUP]
        rw [if_neg (by simp)]

/-- Witness for C3 (amended): an up-locked context with accumulation 9
fires one volume-up pair, and two frames of weighted displacement 8 each
from a fresh lock fire exactly 2 pairs with residual 0. -/
theorem c3_leaky_accumulator_amended_witness :
    (process_accumulated_movement
        ⟨.verticalActive, .up, 0, 0, 0, 3, .up, 9, 9, 1, 0, true, some 80000⟩ 7).2 =
      [⟨KEY_VOLUMEUP, true⟩, ⟨KEY_VOLUMEUP, false⟩] ∧
    (tp_deal_with_frames
        ⟨.verticalActive, .up, 0, 0, 0, 3, .up, 0, 0, 0, 0, true, some 80000⟩
        [⟨1000, 4, 0, -16, 16⟩, ⟨1100, 4, 0, -16, 16⟩]).1.keys_sent = 2 ∧
    (tp_deal_with_frames
        ⟨.verticalActive, .up, 0, 0, 0, 3, .up, 0, 0, 0, 0, true, some 80000⟩
        [⟨1000, 4, 0, -16, 16⟩, ⟨1100, 4, 0, -16, 16⟩]).1.accumulated_delta = 0 := by
  have h := c3_leaky_accumulator_amended
    ⟨.verticalActive, .up, 0, 0, 0, 3, .up, 9, 9, 1, 0, true, some 80000⟩ 7
    SWIPE_VOLUME_THRESHOLD KEY_VOLUMEUP .up SWIPE_VOLUME_THRESHOLD KEY_VOLUMEUP
    [⟨1000, 4, 0, -16, 16⟩, ⟨1100, 4, 0, -16, 16⟩]
    ⟨.verticalActive, .up, 0, 0, 0, 3, .up, 0, 0, 0, 0, true, some 80000⟩
  have hdir : get_primary_direction (0 : ℚ) (-16) = SwipeDir.up := by
    norm_num [get_primary_direction, SWIPE_MIN_DELTA_THRESHOLD, SWIPE_AXIS_LOCK_FACTOR]
  have hw : swipe_frame_weight .up (⟨1000, 4, 0, -16, 16⟩ : SwipeFrame) =
      SWIPE_VOLUME_THRESHOLD := by
    norm_num [swipe_frame_weight, calculate_speed_multiplier, SWIPE_FAST_THRESHOLD,
      SWIPE_SPEED_SCALE_FAST, SWIPE_VOLUME_THRESHOLD]
  have hw2 : swipe_frame_weight .up (⟨1100, 4, 0, -16, 16⟩ : SwipeFrame) =
      SWIPE_VOLUME_THRESHOLD := by
    norm_num [swipe_frame_weight, calculate_speed_multiplier, SWIPE_FAST_THRESHOLD,
      SWIPE_SPEED_SCALE_FAST, SWIPE_VOLUME_THRESHOLD]
  have hfire := h.2.1 rfl (by
    show |(9 : ℚ)| ≥ SWIPE_VOLUME_THRESHOLD
    rw [abs_of_pos (by norm_num)]
    norm_num [SWIPE_VOLUME_THRESHOLD])
  have hlaw := h.2.2 rfl rfl rfl rfl rfl
    (by
      intro fr hfr
      simp only [List.mem_cons, List.mem_singleton, List.not_mem_nil, or_false] at hfr
      rcases hfr with rfl | rfl
      · exact ⟨rfl, hdir, by rw [hw]; norm_num [SWIPE_VOLUME_THRESHOLD], by rw [hw]⟩
      · exact ⟨rfl, hdir, by rw [hw2]; norm_num [SWIPE_VOLUME_THRESHOLD], by rw [hw2]⟩)
    (by
      simp only [List.map_cons, List.map_nil, List.sum_cons, List.sum_nil, hw, hw2]
      ring)
  refine ⟨?_, hlaw.1, hlaw.2⟩
  rw [hfire]


end MyLibinput
